import Mathlib

/-!
Shallow embedding of the SFZ voice engine in
src/soundfonts/src/sfz/engine.rs (sonarigo), together with theorems
settling the specification claims about it.

Conventions of the embedding:
* `wmidi` note numbers, velocities and control values (7-bit integers)
  are `Nat`; Rust `i32` becomes `Int`; the Rust cast `v as u8` becomes
  `u8_of_i32` (reduction modulo 256).
* `f32`/`f64` values that are only ever compared (random ranges, times)
  are `ℚ`; values flowing through `log`/`pow` (gains, frequencies) are
  `ℝ` and live in separate, clearly marked definitions.
* The `sample::Sample` collaborator (not part of the engine source file)
  is represented by the list of calls the region makes into it: each
  mutating region operation returns, next to the new region state, the
  list of `SampleOp` calls it issued, in order.
-/

namespace Sonarigo

/-- Error type of the range mutators (`RangeError` in errors.rs); only the
constructor used matters for the claims, not the message payload. -/
inductive RangeError
  | outOfRange
  | flippedRange
deriving DecidableEq, Repr

/-- The Rust cast `v as u8` for `v : i32`: truncation to the low 8 bits. -/
def u8_of_i32 (v : Int) : Nat := (v % 256).toNat

/-- `VelRange` (engine.rs lines 20-24): a velocity pair; `wmidi::Velocity`
values are 0..=127. -/
structure VelRange where
  lo : Nat
  hi : Nat
deriving DecidableEq, Repr

/-- `VelRange::set_hi` (engine.rs 27-35): cast to u8, reject values above
127, reject a new hi below the current lo, otherwise store. -/
def VelRange.set_hi (r : VelRange) (v : Int) : Except RangeError VelRange :=
  let vel := u8_of_i32 v
  if vel ≤ 127 then
    if vel < r.lo then .error .flippedRange
    else .ok { r with hi := vel }
  else .error .outOfRange

/-- `VelRange::set_lo` (engine.rs 37-45). -/
def VelRange.set_lo (r : VelRange) (v : Int) : Except RangeError VelRange :=
  let vel := u8_of_i32 v
  if vel ≤ 127 then
    if r.hi < vel then .error .flippedRange
    else .ok { r with lo := vel }
  else .error .outOfRange

/-- `VelRange::covering` (engine.rs 47-49). -/
def VelRange.covering (r : VelRange) (vel : Nat) : Bool :=
  r.lo ≤ vel && vel ≤ r.hi

/-- `VelRange::default` (engine.rs 52-59): full velocity range. -/
def VelRange.default : VelRange := ⟨0, 127⟩

/-- `NoteRange` (engine.rs 61-65): optional endpoints over notes 0..=127. -/
structure NoteRange where
  lo : Option Nat
  hi : Option Nat
deriving DecidableEq, Repr

/-- `NoteRange::set_hi` (engine.rs 68-81): -1 disables the endpoint;
otherwise cast to u8, reject values above 127 and a new hi below the
present lo. -/
def NoteRange.set_hi (r : NoteRange) (v : Int) : Except RangeError NoteRange :=
  if v = -1 then .ok { r with hi := none }
  else
    let note := u8_of_i32 v
    if note ≤ 127 then
      if r.lo.any (fun n => note < n) then .error .flippedRange
      else .ok { r with hi := some note }
    else .error .outOfRange

/-- `NoteRange::set_lo` (engine.rs 83-96). -/
def NoteRange.set_lo (r : NoteRange) (v : Int) : Except RangeError NoteRange :=
  if v = -1 then .ok { r with lo := none }
  else
    let note := u8_of_i32 v
    if note ≤ 127 then
      if r.hi.any (fun n => n < note) then .error .flippedRange
      else .ok { r with lo := some note }
    else .error .outOfRange

/-- `NoteRange::covering` (engine.rs 98-103): matches only when both
endpoints are present. -/
def NoteRange.covering (r : NoteRange) (note : Nat) : Bool :=
  match r.lo, r.hi with
  | some lo, some hi => lo ≤ note && note ≤ hi
  | _, _ => false

/-- `NoteRange::default` (engine.rs 106-113): the whole keyboard. -/
def NoteRange.default : NoteRange := ⟨some 0, some 127⟩

/-- `RandomRange` (engine.rs 115-119); the `f32` bounds become `ℚ`.
Field order follows the source: `hi` first. -/
structure RandomRange where
  hi : ℚ
  lo : ℚ
deriving DecidableEq, Repr

/-- `RandomRange::set_hi` (engine.rs 122-133). The first match arm keeps
the source's conjunction `v < 0.0 && v > 1.0` (which is unsatisfiable);
the flipped check fires only when the stored lo is positive. -/
def RandomRange.set_hi (r : RandomRange) (v : ℚ) : Except RangeError RandomRange :=
  if v < 0 ∧ 1 < v then .error .outOfRange
  else if v < r.lo ∧ 0 < r.lo then .error .flippedRange
  else .ok { r with hi := v }

/-- `RandomRange::set_lo` (engine.rs 135-146). -/
def RandomRange.set_lo (r : RandomRange) (v : ℚ) : Except RangeError RandomRange :=
  if v < 0 ∧ 1 < v then .error .outOfRange
  else if r.hi < v ∧ 0 < r.hi then .error .flippedRange
  else .ok { r with lo := v }

/-- `RandomRange::covering` (engine.rs 148-150): degenerate range matches
everything, otherwise the half-open comparison lo ≤ v < hi. -/
def RandomRange.covering (r : RandomRange) (v : ℚ) : Bool :=
  r.hi == r.lo || (r.lo ≤ v && v < r.hi)

/-- `RandomRange::default` (derived `Default`, engine.rs 115): both 0. -/
def RandomRange.default : RandomRange := ⟨0, 0⟩

/-- `ControlValRange` (engine.rs 153-157); field order as in the source. -/
structure ControlValRange where
  hi : Option Nat
  lo : Option Nat
deriving DecidableEq, Repr

/-- `ControlValRange::set_hi` (engine.rs 160-175): a negative value
disables the endpoint; otherwise cast to u8, reject values above 127 and
a new hi below the present lo. -/
def ControlValRange.set_hi (r : ControlValRange) (v : Int) : Except RangeError ControlValRange :=
  if v < 0 then .ok { r with hi := none }
  else
    let val := u8_of_i32 v
    if val ≤ 127 then
      if r.lo.any (fun lo => val < lo) then .error .flippedRange
      else .ok { r with hi := some val }
    else .error .outOfRange

/-- `ControlValRange::set_lo` (engine.rs 177-192). -/
def ControlValRange.set_lo (r : ControlValRange) (v : Int) : Except RangeError ControlValRange :=
  if v < 0 then .ok { r with lo := none }
  else
    let val := u8_of_i32 v
    if val ≤ 127 then
      if r.hi.any (fun hi => hi < val) then .error .flippedRange
      else .ok { r with lo := some val }
    else .error .outOfRange

/-- `ControlValRange::covering` (engine.rs 194-199). -/
def ControlValRange.covering (r : ControlValRange) (vel : Nat) : Bool :=
  match r.lo, r.hi with
  | some lo, some hi => lo ≤ vel && vel ≤ hi
  | _, _ => false

/-- `Trigger` (engine.rs 202-209). -/
inductive Trigger
  | attack
  | release
  | first
  | legato
  | releaseKey
deriving DecidableEq, Repr

/-- `RegionData` (engine.rs 217-245), the immutable per-region
configuration. The `ampeg` envelope generator and the `sample` file name
are omitted: no claim mentions them and they do not influence any of the
modelled operations. The decimal-valued fields (`f32`/`f64` in the
source) are `ℚ`; they enter real-valued gain and pitch computations only
through the casts in `velocityDb`, `noteOnGain` and `noteOnFreq` below.
The `on_ccs` hash map becomes an association list keyed by controller
number. -/
structure RegionData where
  key_range : NoteRange
  vel_range : VelRange
  pitch_keycenter : Nat
  pitch_keytrack : ℚ
  amp_veltrack : ℚ
  volume : ℚ
  rt_decay : ℚ
  tune : ℚ
  trigger : Trigger
  group : Nat
  off_by : Nat
  on_ccs : List (Nat × ControlValRange)
  random_range : RandomRange
deriving DecidableEq, Repr

/-- `RegionData::default` (engine.rs 247-275): full key and velocity
range, keycenter C3 = 60, keytrack 1, veltrack 1, everything else zero
or empty. -/
def RegionData.default : RegionData where
  key_range := NoteRange.default
  vel_range := VelRange.default
  pitch_keycenter := 60
  pitch_keytrack := 1
  amp_veltrack := 1
  volume := 0
  rt_decay := 0
  tune := 0
  trigger := .attack
  group := 0
  off_by := 0
  on_ccs := []
  random_range := RandomRange.default

/-- `HashMap::get` on the association-list rendering of `on_ccs`. -/
def ccLookup (l : List (Nat × ControlValRange)) (k : Nat) : Option ControlValRange :=
  (l.find? (fun p => p.1 == k)).map Prod.snd

/-- One call from a `Region` into its `sample::Sample` collaborator.
`sample.rs` is outside the given source; the engine claims only need
which calls a region makes and in which order, so each call is recorded
as a constructor. A `noteOn` records the MIDI note, the velocity and the
region's `time_since_note_on` at the moment of the call: these are
exactly the inputs from which the real-valued frequency and gain
arguments of `Sample::note_on` are computed (`noteOnFreq`, `noteOnGain`
below). -/
inductive SampleOp
  | noteOn (note : Nat) (velocity : Nat) (timeSince : ℚ)
  | noteOff (note : Nat)
  | allNotesOff
deriving DecidableEq, Repr

/-- The MIDI messages the engine reacts to (`wmidi::MidiMessage`);
`other` stands for every remaining message kind, which the engine
ignores (engine.rs 562). -/
inductive MidiMessage
  | noteOn (channel note velocity : Nat)
  | noteOff (channel note velocity : Nat)
  | controlChange (channel controller value : Nat)
  | other
deriving DecidableEq, Repr

/-- `Region` (engine.rs 352-370), the mutable per-region runtime state.
The `sample` voice player is externalised into the `SampleOp` call lists
returned by each operation, and the `gain` field (written in `note_on`
and immediately passed on to the sample) is represented by the
`noteOnGain` function of the recorded call arguments. The two hash sets
become `Finset Nat`. `host_samplerate` and `sample_samplerate` are the
construction arguments of `Region::new`; the sample rate of the source
file is kept here because the sample's baked-in native frequency
(`Region.sampleNativeFreq` below) depends on it. -/
structure Region where
  params : RegionData
  host_samplerate : ℚ
  sample_samplerate : ℚ
  last_note_on : Option (Nat × Nat)
  notes_for_release_trigger : Finset Nat
  other_notes_on : Finset Nat
  time_since_note_on : ℚ
  sustain_pedal_pushed : Bool
  once_immune_against_group_events : Bool
deriving DecidableEq

/-- `Region::new` (engine.rs 373-406): fresh bookkeeping state. -/
def Region.new (params : RegionData) (host_samplerate sample_samplerate : ℚ) : Region where
  params := params
  host_samplerate := host_samplerate
  sample_samplerate := sample_samplerate
  last_note_on := none
  notes_for_release_trigger := ∅
  other_notes_on := ∅
  time_since_note_on := 0
  sustain_pedal_pushed := false
  once_immune_against_group_events := false

/-- `Region::note_on` (engine.rs 417-450): reset `time_since_note_on`
and call `Sample::note_on`. The recorded call carries the inputs of the
frequency and gain computations; the gain stored in `self.gain` is
`noteOnGain r.params r.time_since_note_on velocity` and the frequency
passed is `noteOnFreq r.params note` (defined below over `ℝ`). -/
def Region.note_on (r : Region) (note velocity : Nat) : Region × List SampleOp :=
  ({ r with time_since_note_on := 0 },
   [SampleOp.noteOn note velocity r.time_since_note_on])

/-- `Region::note_off` (engine.rs 452-454). -/
def Region.note_off (r : Region) (note : Nat) : Region × List SampleOp :=
  (r, [SampleOp.noteOff note])

/-- `Region::sustain_pedal` (engine.rs 456-471): store the pedal state;
on a value signalling "released", a Release-trigger region replays its
stored note-on, every other trigger releases the deferred notes and
clears the set. The hash-set iteration order of the source is
unspecified; the ascending order fixed here has the same per-note
effect. -/
def Region.sustain_pedal (r : Region) (pushed : Bool) : Region × List SampleOp :=
  let r := { r with sustain_pedal_pushed := pushed }
  if pushed then (r, [])
  else
    match r.params.trigger with
    | .release =>
        match r.last_note_on with
        | some (note, vel) => r.note_on note vel
        | none => (r, [])
    | _ =>
        ({ r with notes_for_release_trigger := ∅ },
         (r.notes_for_release_trigger.sort (· ≤ ·)).map SampleOp.noteOff)

/-- `Region::handle_note_on` (engine.rs 473-503). Returns the new state,
the sample calls and the "fired" flag. -/
def Region.handle_note_on (r : Region) (note velocity : Nat) : Region × List SampleOp × Bool :=
  if ¬ r.params.key_range.covering note then
    ({ r with other_notes_on := insert note r.other_notes_on }, [], false)
  else if ¬ r.params.vel_range.covering velocity then
    (r, [], false)
  else
    match r.params.trigger with
    | .release | .releaseKey =>
        ({ r with last_note_on := some (note, velocity) }, [], false)
    | .first =>
        if r.other_notes_on ≠ ∅ then (r, [], false)
        else
          let x := r.note_on note velocity
          ({ x.1 with notes_for_release_trigger := x.1.notes_for_release_trigger.erase note },
           x.2, true)
    | .legato =>
        if r.other_notes_on = ∅ then (r, [], false)
        else
          let x := r.note_on note velocity
          ({ x.1 with notes_for_release_trigger := x.1.notes_for_release_trigger.erase note },
           x.2, true)
    | .attack =>
        let x := r.note_on note velocity
        ({ x.1 with notes_for_release_trigger := x.1.notes_for_release_trigger.erase note },
         x.2, true)

/-- `Region::handle_note_off` (engine.rs 505-527). In the Release and
ReleaseKey branch the stored pair shadows the event's note, exactly as
the `Some((note, velocity))` pattern does in the source. -/
def Region.handle_note_off (r : Region) (note : Nat) : Region × List SampleOp × Bool :=
  if ¬ r.params.key_range.covering note then
    ({ r with other_notes_on := r.other_notes_on.erase note }, [], false)
  else
    match r.params.trigger with
    | .release | .releaseKey =>
        match r.last_note_on with
        | some (n, vel) =>
            let x := r.note_on n vel
            (x.1, x.2, true)
        | none => (r, [], false)
    | _ =>
        if ¬ r.sustain_pedal_pushed then
          let x := r.note_off note
          (x.1, x.2, false)
        else
          ({ r with notes_for_release_trigger := insert note r.notes_for_release_trigger },
           [], false)

/-- `Region::handle_control_event` (engine.rs 529-546): controller 64
drives the sustain pedal first; independently, a matching `on_ccs` range
fires a note-on at the keycenter with maximal velocity (127) and makes
the region report "fired". -/
def Region.handle_control_event (r : Region) (cnum cval : Nat) : Region × List SampleOp × Bool :=
  let s := if cnum = 64 then r.sustain_pedal (64 ≤ cval) else (r, [])
  match ccLookup s.1.params.on_ccs cnum with
  | some cvrange =>
      if cvrange.covering cval then
        let x := s.1.note_on s.1.params.pitch_keycenter 127
        (x.1, s.2 ++ x.2, true)
      else (s.1, s.2, false)
  | none => (s.1, s.2, false)

/-- `Region::pass_midi_msg` (engine.rs 548-564): clear the per-event
group immunity, then dispatch; note-ons are gated by the random draw
before anything else. -/
def Region.pass_midi_msg (r : Region) (msg : MidiMessage) (random_value : ℚ) :
    Region × List SampleOp × Bool :=
  let r := { r with once_immune_against_group_events := false }
  match msg with
  | .noteOn _ note vel =>
      if r.params.random_range.covering random_value then r.handle_note_on note vel
      else (r, [], false)
  | .noteOff _ note _ => r.handle_note_off note
  | .controlChange _ cnum cval => r.handle_control_event cnum cval
  | .other => (r, [], false)

/-- `Region::group` (engine.rs 566-569): mark the region immune for this
event and report its group id. -/
def Region.group (r : Region) : Region × Nat :=
  ({ r with once_immune_against_group_events := true }, r.params.group)

/-- `Region::group_activated` (engine.rs 571-578): unless immune, a
matching group or off_by id silences all voices. -/
def Region.group_activated (r : Region) (g : Nat) : Region × List SampleOp :=
  if r.once_immune_against_group_events then (r, [])
  else if g = r.params.group ∨ g = r.params.off_by then (r, [SampleOp.allNotesOff])
  else (r, [])

/-- `Region::all_notes_off` (engine.rs 580-582). -/
def Region.all_notes_off (r : Region) : Region × List SampleOp :=
  (r, [SampleOp.allNotesOff])

/-- `Region::process` (engine.rs 408-415) restricted to its effect on
the region state: advance `time_since_note_on` by the block length in
seconds (the delegated `Sample::process` touches no region field). -/
def Region.process (r : Region) (blockLen : Nat) : Region :=
  { r with time_since_note_on := r.time_since_note_on + blockLen / r.host_samplerate }

/-- `Engine` (engine.rs 617-619). -/
structure Engine where
  regions : List Region

/-- `HashSet::insert` on the insertion-ordered list rendering of
`activated_groups`: groups are deduplicated; claims about the set only
use membership. -/
def insertGroup (l : List Nat) (g : Nat) : List Nat :=
  if g ∈ l then l else l ++ [g]

/-- The body of the first loop of `Engine::midi_event` (engine.rs
684-691) for one region: pass the event; if the region fired, mark it
immune via `Region::group` and report its group id when positive.
Entry: region after the pass, sample calls, reported group. -/
def passEntry (msg : MidiMessage) (rv : ℚ) (r : Region) :
    Region × List SampleOp × Option Nat :=
  let x := r.pass_midi_msg msg rv
  if x.2.2 then
    let y := x.1.group
    (y.1, x.2.1, if 0 < y.2 then some y.2 else none)
  else (x.1, x.2.1, none)

/-- The first loop of `Engine::midi_event` over all regions. -/
def Engine.passOne (e : Engine) (msg : MidiMessage) (rv : ℚ) :
    List (Region × List SampleOp × Option Nat) :=
  e.regions.map (passEntry msg rv)

/-- The set of groups activated by one MIDI event (engine.rs 682-691). -/
def Engine.firedGroups (e : Engine) (msg : MidiMessage) (rv : ℚ) : List Nat :=
  ((e.passOne msg rv).filterMap (fun t => t.2.2)).foldl insertGroup []

/-- `Engine::midi_event` (engine.rs 681-697): the pass loop followed by
the group broadcast. The source iterates groups outside and regions
inside; since `group_activated` never touches another region, the loop
nest is swapped here so that each region's sample calls can be returned
as one list (pass calls first, then one entry per broadcast group, in
broadcast order — the per-region call order of the source). Returns the
new engine and, for each region in order, the calls it issued. -/
def Engine.midi_event (e : Engine) (msg : MidiMessage) (rv : ℚ) :
    Engine × List (List SampleOp) :=
  let pass1 := e.passOne msg rv
  let groups := (pass1.filterMap (fun t => t.2.2)).foldl insertGroup []
  let fin := pass1.map fun t =>
    groups.foldl
      (fun acc g =>
        let z := acc.1.group_activated g
        (z.1, acc.2 ++ z.2))
      (t.1, t.2.1)
  (⟨fin.map Prod.fst⟩, fin.map Prod.snd)

/-- `Engine::fadeout` (engine.rs 665-669). -/
def Engine.fadeout (e : Engine) : Engine × List (List SampleOp) :=
  let fin := e.regions.map Region.all_notes_off
  (⟨fin.map Prod.fst⟩, fin.map Prod.snd)

/-- Whether a region fires on a given event and draw. -/
def Region.firedOn (r : Region) (msg : MidiMessage) (rv : ℚ) : Bool :=
  (r.pass_midi_msg msg rv).2.2

/-- Modelled from the spec: `utils::dB_to_gain` (utils.rs is not part of
the given source). "Linear gain: `10^(dB/20)`." -/
noncomputable def dB_to_gain (v : ℝ) : ℝ := (10 : ℝ) ^ (v / 20)

/-- The velocity after `amp_veltrack` sign handling (engine.rs 418-423):
negative tracking inverts the velocity. -/
def velTracked (params : RegionData) (velocity : Nat) : Nat :=
  if params.amp_veltrack < 0 then 127 - velocity else velocity

/-- The velocity attenuation in dB (engine.rs 425-430): -160 dB for a
zero effective velocity, otherwise `-20·log10(127²/(v·v))`. -/
noncomputable def velocityDb (params : RegionData) (velocity : Nat) : ℝ :=
  let vel := velTracked params velocity
  if vel = 0 then -160
  else -20 * Real.logb 10 ((127 * 127) / ((vel : ℝ) * vel))

/-- The release-trigger decay term in dB (engine.rs 432-437):
`time_since_note_on · (-rt_decay)` for the Release and ReleaseKey
triggers, 0 otherwise. -/
noncomputable def rtDecayDb (params : RegionData) (timeSince : ℚ) : ℝ :=
  match params.trigger with
  | .release | .releaseKey => (timeSince : ℝ) * (-(params.rt_decay : ℝ))
  | _ => 0

/-- The linear gain `Region::note_on` stores in `self.gain` and passes
to `Sample::note_on` (engine.rs 439-441), as a function of the data
recorded in the corresponding `SampleOp.noteOn`. -/
noncomputable def noteOnGain (params : RegionData) (timeSince : ℚ) (velocity : Nat) : ℝ :=
  dB_to_gain ((params.volume : ℝ)
    + velocityDb params velocity * |(params.amp_veltrack : ℝ)|
    + rtDecayDb params timeSince)

/-- Modelled from wmidi (external crate): `Note::to_freq_f64`, the
standard MIDI tuning `440·2^((n-69)/12)` Hz. -/
noncomputable def noteHz (note : Nat) : ℝ :=
  440 * (2 : ℝ) ^ (((note : ℝ) - 69) / 12)

/-- The frequency `Region::note_on` passes to `Sample::note_on`
(engine.rs 443-446): the un-scaled keycenter frequency times the
keytrack and tune shifts. -/
noncomputable def noteOnFreq (params : RegionData) (note : Nat) : ℝ :=
  let native_freq := noteHz params.pitch_keycenter
  let key_pitchshift := (noteHz note / native_freq) ^ (params.pitch_keytrack : ℝ)
  let tune_pitchshift := (2 : ℝ) ^ (1 / 12 * (params.tune : ℝ))
  native_freq * key_pitchshift * tune_pitchshift

/-- The native frequency baked into the region's `Sample` at
construction (engine.rs 382-386): the keycenter frequency scaled by
host rate over source rate. -/
noncomputable def Region.sampleNativeFreq (r : Region) : ℝ :=
  noteHz r.params.pitch_keycenter * ((r.host_samplerate : ℝ) / (r.sample_samplerate : ℝ))

/-- One mutation of a region's state as the engine performs it: a MIDI
pass, a processed audio block, the `group`/`group_activated` calls of
the group broadcast, or a fade-out. -/
inductive Step : Region → Region → Prop
  | pass (r : Region) (msg : MidiMessage) (rv : ℚ) : Step r (r.pass_midi_msg msg rv).1
  | block (r : Region) (n : Nat) : Step r (r.process n)
  | grp (r : Region) : Step r r.group.1
  | grpActivated (r : Region) (g : Nat) : Step r (r.group_activated g).1
  | fade (r : Region) : Step r r.all_notes_off.1

/-- The region states that actually occur in a run of the engine:
everything reachable from a freshly constructed region by engine
operations. -/
inductive Reachable : Region → Prop
  | init (params : RegionData) (host source : ℚ) :
      Reachable (Region.new params host source)
  | step {r r' : Region} : Reachable r → Step r r' → Reachable r'

/-! Helper lemmas: how each region operation treats the individual
state fields and which sample calls it can issue. -/

theorem note_on_params (r : Region) (n v : Nat) :
    (r.note_on n v).1.params = r.params := rfl

theorem note_on_immune (r : Region) (n v : Nat) :
    (r.note_on n v).1.once_immune_against_group_events
      = r.once_immune_against_group_events := rfl

theorem note_on_last (r : Region) (n v : Nat) :
    (r.note_on n v).1.last_note_on = r.last_note_on := rfl

theorem note_on_nfrt (r : Region) (n v : Nat) :
    (r.note_on n v).1.notes_for_release_trigger = r.notes_for_release_trigger := rfl

theorem sustain_pedal_params (r : Region) (p : Bool) :
    (r.sustain_pedal p).1.params = r.params := by
  simp only [Region.sustain_pedal]
  split
  · rfl
  · split
    · split <;> rfl
    · rfl

theorem sustain_pedal_immune (r : Region) (p : Bool) :
    (r.sustain_pedal p).1.once_immune_against_group_events
      = r.once_immune_against_group_events := by
  simp only [Region.sustain_pedal]
  split
  · rfl
  · split
    · split <;> rfl
    · rfl

theorem sustain_pedal_last (r : Region) (p : Bool) :
    (r.sustain_pedal p).1.last_note_on = r.last_note_on := by
  simp only [Region.sustain_pedal]
  split
  · rfl
  · split
    · split <;> rfl
    · rfl

theorem handle_note_on_params (r : Region) (n v : Nat) :
    (r.handle_note_on n v).1.params = r.params := by
  simp only [Region.handle_note_on, Region.note_on]
  split
  · rfl
  · split
    · rfl
    · split <;> first | rfl | (split <;> rfl)

theorem handle_note_on_immune (r : Region) (n v : Nat) :
    (r.handle_note_on n v).1.once_immune_against_group_events
      = r.once_immune_against_group_events := by
  simp only [Region.handle_note_on, Region.note_on]
  split
  · rfl
  · split
    · rfl
    · split <;> first | rfl | (split <;> rfl)

theorem handle_note_on_last_isSome (r : Region) (n v : Nat)
    (h : r.last_note_on.isSome = true) :
    (r.handle_note_on n v).1.last_note_on.isSome = true := by
  simp only [Region.handle_note_on, Region.note_on]
  split <;> (try split) <;> (try split) <;> (try split) <;> first | rfl | exact h

theorem handle_note_off_params (r : Region) (n : Nat) :
    (r.handle_note_off n).1.params = r.params := by
  simp only [Region.handle_note_off, Region.note_on, Region.note_off]
  split <;> (try split) <;> (try split) <;> rfl

theorem handle_note_off_immune (r : Region) (n : Nat) :
    (r.handle_note_off n).1.once_immune_against_group_events
      = r.once_immune_against_group_events := by
  simp only [Region.handle_note_off, Region.note_on, Region.note_off]
  split <;> (try split) <;> (try split) <;> rfl

theorem handle_note_off_last (r : Region) (n : Nat) :
    (r.handle_note_off n).1.last_note_on = r.last_note_on := by
  simp only [Region.handle_note_off, Region.note_on, Region.note_off]
  split <;> (try split) <;> (try split) <;> rfl

theorem handle_control_event_params (r : Region) (c v : Nat) :
    (r.handle_control_event c v).1.params = r.params := by
  simp only [Region.handle_control_event]
  split <;> (try split) <;> (try split) <;>
    simp [note_on_params, sustain_pedal_params]

theorem handle_control_event_immune (r : Region) (c v : Nat) :
    (r.handle_control_event c v).1.once_immune_against_group_events
      = r.once_immune_against_group_events := by
  simp only [Region.handle_control_event]
  split <;> (try split) <;> (try split) <;>
    simp [note_on_immune, sustain_pedal_immune]

theorem handle_control_event_last (r : Region) (c v : Nat) :
    (r.handle_control_event c v).1.last_note_on = r.last_note_on := by
  simp only [Region.handle_control_event]
  split <;> (try split) <;> (try split) <;>
    simp [note_on_last, sustain_pedal_last]

theorem pass_midi_msg_params (r : Region) (msg : MidiMessage) (rv : ℚ) :
    (r.pass_midi_msg msg rv).1.params = r.params := by
  cases msg with
  | noteOn ch n v =>
      simp only [Region.pass_midi_msg]
      split
      · exact handle_note_on_params _ _ _
      · rfl
  | noteOff ch n v => exact handle_note_off_params _ _
  | controlChange ch c v => exact handle_control_event_params _ _ _
  | other => rfl

theorem pass_midi_msg_immune (r : Region) (msg : MidiMessage) (rv : ℚ) :
    (r.pass_midi_msg msg rv).1.once_immune_against_group_events = false := by
  cases msg with
  | noteOn ch n v =>
      simp only [Region.pass_midi_msg]
      split
      · exact handle_note_on_immune _ _ _
      · rfl
  | noteOff ch n v => exact handle_note_off_immune _ _
  | controlChange ch c v => exact handle_control_event_immune _ _ _
  | other => rfl

theorem sustain_pedal_ops_no_anoff (r : Region) (p : Bool) :
    SampleOp.allNotesOff ∉ (r.sustain_pedal p).2 := by
  simp only [Region.sustain_pedal]
  split <;> (try split) <;> (try split) <;> simp [Region.note_on]

theorem handle_note_on_ops_no_anoff (r : Region) (n v : Nat) :
    SampleOp.allNotesOff ∉ (r.handle_note_on n v).2.1 := by
  simp only [Region.handle_note_on]
  split <;> (try split) <;> (try split) <;> (try split) <;> simp [Region.note_on]

theorem handle_note_off_ops_no_anoff (r : Region) (n : Nat) :
    SampleOp.allNotesOff ∉ (r.handle_note_off n).2.1 := by
  simp only [Region.handle_note_off]
  split <;> (try split) <;> (try split) <;> simp [Region.note_on, Region.note_off]

theorem handle_control_event_ops_no_anoff (r : Region) (c v : Nat) :
    SampleOp.allNotesOff ∉ (r.handle_control_event c v).2.1 := by
  have hped : SampleOp.allNotesOff ∉ (if c = 64 then r.sustain_pedal (64 ≤ v) else (r, [])).2 := by
    split
    · exact sustain_pedal_ops_no_anoff _ _
    · simp
  simp only [Region.handle_control_event]
  split <;> (try split) <;> simp_all [Region.note_on]

theorem pass_midi_msg_ops_no_anoff (r : Region) (msg : MidiMessage) (rv : ℚ) :
    SampleOp.allNotesOff ∉ (r.pass_midi_msg msg rv).2.1 := by
  cases msg with
  | noteOn ch n v =>
      simp only [Region.pass_midi_msg]
      split
      · exact handle_note_on_ops_no_anoff _ _ _
      · simp
  | noteOff ch n v => exact handle_note_off_ops_no_anoff _ _
  | controlChange ch c v => exact handle_control_event_ops_no_anoff _ _ _
  | other => simp [Region.pass_midi_msg]

theorem group_activated_fst (r : Region) (g : Nat) :
    (r.group_activated g).1 = r := by
  simp only [Region.group_activated]
  split <;> (try split) <;> rfl

theorem mem_group_activated_ops (r : Region) (g : Nat) :
    SampleOp.allNotesOff ∈ (r.group_activated g).2 ↔
      r.once_immune_against_group_events = false
        ∧ (g = r.params.group ∨ g = r.params.off_by) := by
  simp only [Region.group_activated]
  split
  · simp_all
  · split <;> simp_all

theorem mem_foldl_insertGroup (xs : List Nat) (l : List Nat) (g : Nat) :
    g ∈ xs.foldl insertGroup l ↔ g ∈ l ∨ g ∈ xs := by
  induction xs generalizing l with
  | nil => simp
  | cons x xs ih =>
      by_cases hx : x ∈ l
      · simp only [List.foldl_cons, insertGroup, if_pos hx, ih, List.mem_cons]
        constructor
        · rintro (h | h)
          · exact Or.inl h
          · exact Or.inr (Or.inr h)
        · rintro (h | rfl | h)
          · exact Or.inl h
          · exact Or.inl hx
          · exact Or.inr h
      · simp only [List.foldl_cons, insertGroup, if_neg hx, ih, List.mem_append,
          List.mem_singleton, List.mem_cons]
        tauto

/-- The sample calls one region receives during the group broadcast. -/
def groupOps (r : Region) (groups : List Nat) : List SampleOp :=
  (groups.map (fun g => (r.group_activated g).2)).flatten

theorem foldl_group_activated (groups : List Nat) (r : Region) (ops0 : List SampleOp) :
    groups.foldl
        (fun acc g =>
          let z := acc.1.group_activated g
          (z.1, acc.2 ++ z.2))
        (r, ops0)
      = (r, ops0 ++ groupOps r groups) := by
  induction groups generalizing ops0 with
  | nil => simp [groupOps]
  | cons g gs ih =>
      rw [List.foldl_cons]
      dsimp only
      rw [group_activated_fst, ih]
      simp [groupOps, List.append_assoc]

theorem mem_groupOps_anoff (r : Region) (groups : List Nat) :
    SampleOp.allNotesOff ∈ groupOps r groups ↔
      r.once_immune_against_group_events = false
        ∧ ∃ g ∈ groups, g = r.params.group ∨ g = r.params.off_by := by
  simp only [groupOps, List.mem_flatten, List.mem_map]
  constructor
  · rintro ⟨l, ⟨g, hg, rfl⟩, hmem⟩
    rcases (mem_group_activated_ops r g).mp hmem with ⟨him, hmatch⟩
    exact ⟨him, g, hg, hmatch⟩
  · rintro ⟨him, g, hg, hmatch⟩
    exact ⟨(r.group_activated g).2, ⟨g, hg, rfl⟩, (mem_group_activated_ops r g).mpr ⟨him, hmatch⟩⟩

theorem passEntry_params (msg : MidiMessage) (rv : ℚ) (r : Region) :
    (passEntry msg rv r).1.params = r.params := by
  simp only [passEntry]
  split
  · simpa [Region.group] using pass_midi_msg_params r msg rv
  · exact pass_midi_msg_params r msg rv

theorem passEntry_immune (msg : MidiMessage) (rv : ℚ) (r : Region) :
    (passEntry msg rv r).1.once_immune_against_group_events = r.firedOn msg rv := by
  simp only [passEntry, Region.firedOn]
  split
  · simp_all [Region.group]
  · simp_all [pass_midi_msg_immune, Bool.not_eq_true]

theorem passEntry_ops (msg : MidiMessage) (rv : ℚ) (r : Region) :
    (passEntry msg rv r).2.1 = (r.pass_midi_msg msg rv).2.1 := by
  simp only [passEntry]
  split <;> rfl

theorem passEntry_group (msg : MidiMessage) (rv : ℚ) (r : Region) :
    (passEntry msg rv r).2.2 =
      if r.firedOn msg rv = true ∧ 0 < r.params.group then some r.params.group
      else none := by
  simp only [passEntry, Region.firedOn, Region.group]
  split
  · rename_i h
    rw [pass_midi_msg_params]
    simp [h]
  · rename_i h
    simp only [Bool.not_eq_true] at h
    simp [h]

/-- A default region used as the `getD` fallback when indexing region
lists. -/
def dummyRegion : Region := Region.new RegionData.default 1 1

/-- The sample calls region `i` receives during one `Engine::midi_event`:
its own pass calls followed by one `allNotesOff` per broadcast group
that chokes it. -/
theorem midi_event_delta (e : Engine) (msg : MidiMessage) (rv : ℚ) (i : Nat)
    (h : i < e.regions.length) :
    (e.midi_event msg rv).2.getD i []
      = (passEntry msg rv (e.regions.getD i dummyRegion)).2.1
        ++ groupOps (passEntry msg rv (e.regions.getD i dummyRegion)).1
            (e.firedGroups msg rv) := by
  simp only [Engine.midi_event, Engine.passOne, Engine.firedGroups]
  rw [List.getD_eq_getElem?_getD, List.getElem?_map, List.getElem?_map,
    List.getElem?_map, List.getElem?_eq_getElem h, List.getD_eq_getElem _ _ h]
  simp only [Option.map_some', Option.getD_some]
  rw [foldl_group_activated]

/-- C1: after one `Engine::midi_event`, the broadcast groups are exactly
the non-zero group ids of the regions that fired (a fired group id of 0
activates nothing), and region `i` receives an `allNotesOff` call iff it
did not itself fire and some broadcast group equals its `group` or its
`off_by`; in particular a region that fired is never silenced by that
event's broadcast. -/
theorem C1_group_broadcast (e : Engine) (msg : MidiMessage) (rv : ℚ) :
    (∀ g : Nat, g ∈ e.firedGroups msg rv ↔
        0 < g ∧ ∃ r ∈ e.regions, r.firedOn msg rv = true ∧ r.params.group = g) ∧
    (∀ i : Nat, i < e.regions.length →
        (SampleOp.allNotesOff ∈ (e.midi_event msg rv).2.getD i [] ↔
          ((e.regions.getD i dummyRegion).firedOn msg rv = false ∧
           ∃ g ∈ e.firedGroups msg rv,
             g = (e.regions.getD i dummyRegion).params.group
               ∨ g = (e.regions.getD i dummyRegion).params.off_by))) := by
  constructor
  · intro g
    rw [Engine.firedGroups, mem_foldl_insertGroup]
    simp only [List.not_mem_nil, false_or]
    rw [List.mem_filterMap]
    constructor
    · rintro ⟨t, ht, hsome⟩
      rw [Engine.passOne, List.mem_map] at ht
      obtain ⟨r, hr, rfl⟩ := ht
      rw [passEntry_group] at hsome
      split at hsome
      · rename_i hcond
        cases hsome
        exact ⟨hcond.2, r, hr, hcond.1, rfl⟩
      · cases hsome
    · rintro ⟨hg, r, hr, hfired, hgroup⟩
      refine ⟨passEntry msg rv r, ?_, ?_⟩
      · rw [Engine.passOne, List.mem_map]
        exact ⟨r, hr, rfl⟩
      · rw [passEntry_group, if_pos ⟨hfired, hgroup ▸ hg⟩, hgroup]
  · intro i h
    rw [midi_event_delta e msg rv i h, List.mem_append]
    have h1 : SampleOp.allNotesOff ∉ (passEntry msg rv (e.regions.getD i dummyRegion)).2.1 := by
      rw [passEntry_ops]
      exact pass_midi_msg_ops_no_anoff _ _ _
    simp only [h1, false_or]
    rw [mem_groupOps_anoff, passEntry_immune, passEntry_params]

/-- A two-region engine: the first region fires on note 60 with group 1,
the second covers note 61 and is choked by `off_by = 1`. -/
def chokeEngine : Engine :=
  ⟨[Region.new { RegionData.default with key_range := ⟨some 60, some 60⟩, group := 1 } 1 1,
    Region.new { RegionData.default with key_range := ⟨some 61, some 61⟩, off_by := 1 } 1 1]⟩

theorem C1_group_broadcast_witness :
    1 < chokeEngine.regions.length ∧
    (SampleOp.allNotesOff ∈ (chokeEngine.midi_event (.noteOn 0 60 100) 0).2.getD 1 [] ↔
      ((chokeEngine.regions.getD 1 dummyRegion).firedOn (.noteOn 0 60 100) 0 = false ∧
       ∃ g ∈ chokeEngine.firedGroups (.noteOn 0 60 100) 0,
         g = (chokeEngine.regions.getD 1 dummyRegion).params.group
           ∨ g = (chokeEngine.regions.getD 1 dummyRegion).params.off_by)) :=
  ⟨by decide, (C1_group_broadcast chokeEngine (.noteOn 0 60 100) 0).2 1 (by decide)⟩

/-- A region covering only note 60, with randomRange [1/4, 3/4). -/
def c2Region : Region :=
  Region.new
    { RegionData.default with
        key_range := ⟨some 60, some 60⟩,
        random_range := ⟨mkRat 3 4, mkRat 1 4⟩ }
    1 1

/-- C2 fails on the code: for a note-on whose random draw 9/10 lies
outside the region's randomRange, the note 61 outside the key range is
NOT recorded in `other_notes_on` — the random gate is applied before
the key-range bookkeeping, not after it. -/
theorem C2_counterexample :
    c2Region.params.key_range.covering 61 = false ∧
    c2Region.params.random_range.covering (mkRat 9 10) = false ∧
    (c2Region.pass_midi_msg (.noteOn 0 61 64) (mkRat 9 10)).1.other_notes_on = ∅ := by
  decide

/-- C2 (amended): in `Region::pass_midi_msg` the random gate is applied
first, before the key-range, velocity-range and trigger checks: a
note-on whose draw is outside randomRange changes nothing (beyond
clearing the per-event group immunity) and reports not fired; only when
the draw is inside randomRange do the steps 1-3 of note-on handling
run — recording an out-of-range note in `otherNotesOn`, and storing
`lastNoteOn` for an in-range Release/ReleaseKey region. -/
theorem C2_random_gate_first (r : Region) (ch note vel : Nat) (rv : ℚ) :
    (r.params.random_range.covering rv = false →
        r.pass_midi_msg (.noteOn ch note vel) rv
          = ({ r with once_immune_against_group_events := false }, [], false)) ∧
    (r.params.random_range.covering rv = true →
        (r.params.key_range.covering note = false →
            r.pass_midi_msg (.noteOn ch note vel) rv
              = ({ r with
                    once_immune_against_group_events := false,
                    other_notes_on := insert note r.other_notes_on }, [], false)) ∧
        (r.params.key_range.covering note = true →
         r.params.vel_range.covering vel = true →
         (r.params.trigger = .release ∨ r.params.trigger = .releaseKey) →
            r.pass_midi_msg (.noteOn ch note vel) rv
              = ({ r with
                    once_immune_against_group_events := false,
                    last_note_on := some (note, vel) }, [], false))) := by
  refine ⟨fun h => ?_, fun h => ⟨fun hk => ?_, fun hk hv ht => ?_⟩⟩
  · simp [Region.pass_midi_msg, h]
  · simp [Region.pass_midi_msg, h, Region.handle_note_on, hk]
  · rcases ht with ht | ht <;>
      simp [Region.pass_midi_msg, h, Region.handle_note_on, hk, hv, ht]

/-- A fresh Release-trigger region with full default ranges. -/
def relRegion : Region :=
  Region.new { RegionData.default with trigger := .release } 1 1

theorem C2_random_gate_first_witness :
    (c2Region.params.random_range.covering (mkRat 9 10) = false ∧
     c2Region.pass_midi_msg (.noteOn 0 61 64) (mkRat 9 10)
       = ({ c2Region with once_immune_against_group_events := false }, [], false)) ∧
    (relRegion.params.random_range.covering 0 = true ∧
     relRegion.params.key_range.covering 60 = true ∧
     relRegion.params.vel_range.covering 64 = true ∧
     relRegion.params.trigger = .release ∧
     relRegion.pass_midi_msg (.noteOn 0 60 64) 0
       = ({ relRegion with
             once_immune_against_group_events := false,
             last_note_on := some (60, 64) }, [], false)) :=
  ⟨⟨by decide, (C2_random_gate_first c2Region 0 61 64 (mkRat 9 10)).1 (by decide)⟩,
   ⟨by decide, by decide, by decide, by decide,
    ((C2_random_gate_first relRegion 0 60 64 0).2 (by decide)).2
      (by decide) (by decide) (Or.inl (by decide))⟩⟩

theorem sustain_pedal_true (r : Region) :
    r.sustain_pedal true = ({ r with sustain_pedal_pushed := true }, []) := by
  simp [Region.sustain_pedal]

theorem sustain_pedal_false_release_some (r : Region) (n vel : Nat)
    (ht : r.params.trigger = .release) (hl : r.last_note_on = some (n, vel)) :
    r.sustain_pedal false
      = ({ r with sustain_pedal_pushed := false, time_since_note_on := 0 },
         [SampleOp.noteOn n vel r.time_since_note_on]) := by
  simp [Region.sustain_pedal, ht, hl, Region.note_on]

theorem sustain_pedal_false_release_none (r : Region)
    (ht : r.params.trigger = .release) (hl : r.last_note_on = none) :
    r.sustain_pedal false = ({ r with sustain_pedal_pushed := false }, []) := by
  simp [Region.sustain_pedal, ht, hl]

theorem sustain_pedal_false_other (r : Region) (ht : r.params.trigger ≠ .release) :
    r.sustain_pedal false
      = ({ r with sustain_pedal_pushed := false, notes_for_release_trigger := ∅ },
         (r.notes_for_release_trigger.sort (· ≤ ·)).map SampleOp.noteOff) := by
  cases htr : r.params.trigger <;> simp_all [Region.sustain_pedal]

/-- `Region::handle_control_event` on controller 64 when no `on_ccs`
entry can fire: the whole effect is the sustain-pedal call. -/
theorem handle_control_event_64 (r : Region) (v : Nat)
    (hcc : ccLookup r.params.on_ccs 64 = none) :
    r.handle_control_event 64 v
      = ((r.sustain_pedal (decide (64 ≤ v))).1, (r.sustain_pedal (decide (64 ≤ v))).2, false) := by
  simp only [Region.handle_control_event, eq_self_iff_true, if_true]
  rw [sustain_pedal_params, hcc]

/-- A Release-trigger region holding a stored note-on, with the pedal
already released. -/
def c3Region : Region :=
  { relRegion with last_note_on := some (60, 100) }

/-- C3 fails on the code: the sustain pedal is already released
(`sustain_pedal_pushed = false`), yet a CC64 with value 0 performs the
release action again — the Release-trigger region fires a note-on from
its stored `lastNoteOn`. The code acts on every pedal-released value,
not only on a push-to-release transition. -/
theorem C3_counterexample :
    c3Region.sustain_pedal_pushed = false ∧
    (c3Region.handle_control_event 64 0).2.1 = [SampleOp.noteOn 60 100 0] := by
  decide

/-- C3 (amended): a CC64 value of at least 64 sets `sustainPedalPushed`
and a value below 64 clears it; the release actions (Release trigger
with `lastNoteOn` set: fire a note-on from `lastNoteOn`; every other
trigger: `noteOff` for each deferred note and clear the set) are
performed on EVERY CC64 value below 64, regardless of the pedal state
stored before — not only on a push-to-release transition. (Stated for a
region whose `on_ccs` has no entry for controller 64, isolating the
pedal behaviour from the CC-trigger behaviour of claim C10.) -/
theorem C3_sustain_pedal_actions (r : Region) (v : Nat)
    (hcc : ccLookup r.params.on_ccs 64 = none) :
    (64 ≤ v →
        r.handle_control_event 64 v
          = ({ r with sustain_pedal_pushed := true }, [], false)) ∧
    (v < 64 →
        (r.params.trigger = .release →
            (∀ n vl, r.last_note_on = some (n, vl) →
                r.handle_control_event 64 v
                  = ({ r with sustain_pedal_pushed := false, time_since_note_on := 0 },
                     [SampleOp.noteOn n vl r.time_since_note_on], false)) ∧
            (r.last_note_on = none →
                r.handle_control_event 64 v
                  = ({ r with sustain_pedal_pushed := false }, [], false))) ∧
        (r.params.trigger ≠ .release →
            r.handle_control_event 64 v
              = ({ r with sustain_pedal_pushed := false, notes_for_release_trigger := ∅ },
                 (r.notes_for_release_trigger.sort (· ≤ ·)).map SampleOp.noteOff, false))) := by
  constructor
  · intro hv
    rw [handle_control_event_64 r v hcc, decide_eq_true hv, sustain_pedal_true]
  · intro hv
    have hb : decide (64 ≤ v) = false := decide_eq_false (by omega)
    refine ⟨fun ht => ⟨fun n vl hl => ?_, fun hl => ?_⟩, fun ht => ?_⟩
    · rw [handle_control_event_64 r v hcc, hb,
        sustain_pedal_false_release_some r n vl ht hl]
    · rw [handle_control_event_64 r v hcc, hb,
        sustain_pedal_false_release_none r ht hl]
    · rw [handle_control_event_64 r v hcc, hb, sustain_pedal_false_other r ht]

theorem C3_sustain_pedal_actions_witness :
    (ccLookup c3Region.params.on_ccs 64 = none ∧ (0 : Nat) < 64 ∧
     c3Region.params.trigger = .release ∧ c3Region.last_note_on = some (60, 100) ∧
     c3Region.handle_control_event 64 0
       = ({ c3Region with sustain_pedal_pushed := false, time_since_note_on := 0 },
          [SampleOp.noteOn 60 100 c3Region.time_since_note_on], false)) ∧
    (ccLookup relRegion.params.on_ccs 64 = none ∧ (64 : Nat) ≤ 70 ∧
     relRegion.handle_control_event 64 70
       = ({ relRegion with sustain_pedal_pushed := true }, [], false)) :=
  ⟨⟨by decide, by decide, by decide, by decide,
    (((C3_sustain_pedal_actions c3Region 0 (by decide)).2 (by decide)).1
        (by decide)).1 60 100 (by decide)⟩,
   ⟨by decide, by decide,
    (C3_sustain_pedal_actions relRegion 70 (by decide)).1 (by decide)⟩⟩

theorem sustain_pedal_nfrt_empty (r : Region) (p : Bool)
    (h : r.notes_for_release_trigger = ∅) :
    (r.sustain_pedal p).1.notes_for_release_trigger = ∅ := by
  simp only [Region.sustain_pedal]
  split <;> (try split) <;> (try split) <;> simp [Region.note_on, h]

theorem handle_note_on_nfrt_empty (r : Region) (n v : Nat)
    (h : r.notes_for_release_trigger = ∅) :
    (r.handle_note_on n v).1.notes_for_release_trigger = ∅ := by
  simp only [Region.handle_note_on, Region.note_on]
  split <;> (try split) <;> (try split) <;> (try split) <;> simp [h]

theorem handle_note_off_nfrt_release (r : Region) (n : Nat)
    (ht : r.params.trigger = .release ∨ r.params.trigger = .releaseKey)
    (h : r.notes_for_release_trigger = ∅) :
    (r.handle_note_off n).1.notes_for_release_trigger = ∅ := by
  simp only [Region.handle_note_off, Region.note_on, Region.note_off]
  rcases ht with ht | ht <;> rw [ht] <;>
    split <;> (try split) <;> (try split) <;> simp [h]

theorem handle_control_event_nfrt_empty (r : Region) (c v : Nat)
    (h : r.notes_for_release_trigger = ∅) :
    (r.handle_control_event c v).1.notes_for_release_trigger = ∅ := by
  have hped : (if c = 64 then r.sustain_pedal (decide (64 ≤ v))
      else (r, [])).1.notes_for_release_trigger = ∅ := by
    split
    · exact sustain_pedal_nfrt_empty _ _ h
    · exact h
  simp only [Region.handle_control_event]
  split <;> (try split) <;> simp_all [Region.note_on]

theorem pass_midi_msg_nfrt_release (r : Region) (msg : MidiMessage) (rv : ℚ)
    (ht : r.params.trigger = .release ∨ r.params.trigger = .releaseKey)
    (h : r.notes_for_release_trigger = ∅) :
    (r.pass_midi_msg msg rv).1.notes_for_release_trigger = ∅ := by
  cases msg with
  | noteOn ch n v =>
      simp only [Region.pass_midi_msg]
      split
      · exact handle_note_on_nfrt_empty _ _ _ h
      · exact h
  | noteOff ch n v => exact handle_note_off_nfrt_release _ _ ht h
  | controlChange ch c v => exact handle_control_event_nfrt_empty _ _ _ h
  | other => exact h

/-- In every reachable state of a Release- or ReleaseKey-trigger region,
the deferred-release set is empty: the only insertion into
`notes_for_release_trigger` sits in the non-release branch of
`handle_note_off`. -/
theorem release_nfrt_empty {r : Region} (hr : Reachable r) :
    (r.params.trigger = .release ∨ r.params.trigger = .releaseKey) →
    r.notes_for_release_trigger = ∅ := by
  induction hr with
  | init params host source => intro _; rfl
  | step hprev hstep ih =>
      intro ht
      cases hstep with
      | pass msg rv =>
          rename_i r0
          have ht0 : r0.params.trigger = .release ∨ r0.params.trigger = .releaseKey := by
            rwa [pass_midi_msg_params] at ht
          exact pass_midi_msg_nfrt_release r0 msg rv ht0 (ih ht0)
      | block n => exact ih ht
      | grp => exact ih ht
      | grpActivated g =>
          rw [group_activated_fst] at ht ⊢
          exact ih ht
      | fade => exact ih ht

/-- C4: a note-on inside key and velocity range reaching a reachable
Release- or ReleaseKey-trigger region stores `lastNoteOn`, does not
fire, and leaves `notesForReleaseTrigger` equal to its old value with
the note removed (both are the empty set in every reachable state). -/
theorem C4_release_trigger_note_on (r : Region) (note vel : Nat)
    (hr : Reachable r)
    (ht : r.params.trigger = .release ∨ r.params.trigger = .releaseKey)
    (hk : r.params.key_range.covering note = true)
    (hv : r.params.vel_range.covering vel = true) :
    r.handle_note_on note vel
      = ({ r with last_note_on := some (note, vel) }, [], false) ∧
    (r.handle_note_on note vel).1.notes_for_release_trigger
      = r.notes_for_release_trigger.erase note := by
  have hempty := release_nfrt_empty hr ht
  have hmain : r.handle_note_on note vel
      = ({ r with last_note_on := some (note, vel) }, [], false) := by
    rcases ht with ht | ht <;> simp [Region.handle_note_on, hk, hv, ht]
  refine ⟨hmain, ?_⟩
  rw [hmain]
  simp [hempty]

theorem C4_release_trigger_note_on_witness :
    ((relRegion.params.trigger = .release ∨ relRegion.params.trigger = .releaseKey) ∧
     relRegion.params.key_range.covering 60 = true ∧
     relRegion.params.vel_range.covering 80 = true) ∧
    (relRegion.handle_note_on 60 80
       = ({ relRegion with last_note_on := some (60, 80) }, [], false) ∧
     (relRegion.handle_note_on 60 80).1.notes_for_release_trigger
       = relRegion.notes_for_release_trigger.erase 60) :=
  ⟨⟨Or.inl (by decide), by decide, by decide⟩,
   C4_release_trigger_note_on relRegion 60 80
     (Reachable.init { RegionData.default with trigger := .release } 1 1)
     (Or.inl (by decide)) (by decide) (by decide)⟩

theorem pass_midi_msg_last_isSome (r : Region) (msg : MidiMessage) (rv : ℚ)
    (h : r.last_note_on.isSome = true) :
    (r.pass_midi_msg msg rv).1.last_note_on.isSome = true := by
  cases msg with
  | noteOn ch n v =>
      simp only [Region.pass_midi_msg]
      split
      · exact handle_note_on_last_isSome _ _ _ h
      · exact h
  | noteOff ch n v =>
      show (Region.handle_note_off _ n).1.last_note_on.isSome = true
      rw [handle_note_off_last]
      exact h
  | controlChange ch c v =>
      show (Region.handle_control_event _ c v).1.last_note_on.isSome = true
      rw [handle_control_event_last]
      exact h
  | other => exact h

/-- C8: `lastNoteOn`, once set, stays set across every engine operation
on the region (it is only ever overwritten with a new pair, never
cleared), and a Release- or ReleaseKey-trigger region holding
`lastNoteOn = (n, v)` answers EVERY note-off inside its key range by
firing a note-on with exactly the stored pair and reporting fired. -/
theorem C8_last_note_on_persistent :
    (∀ r r' : Region, Step r r' →
        r.last_note_on.isSome = true → r'.last_note_on.isSome = true) ∧
    (∀ (r : Region) (ch note vel2 n v : Nat) (rv : ℚ),
        (r.params.trigger = .release ∨ r.params.trigger = .releaseKey) →
        r.last_note_on = some (n, v) →
        r.params.key_range.covering note = true →
        r.pass_midi_msg (.noteOff ch note vel2) rv
          = ({ r with once_immune_against_group_events := false, time_since_note_on := 0 },
             [SampleOp.noteOn n v r.time_since_note_on], true)) := by
  constructor
  · intro r r' hstep h
    cases hstep with
    | pass msg rv => exact pass_midi_msg_last_isSome _ msg rv h
    | block n => exact h
    | grp => exact h
    | grpActivated g => rw [group_activated_fst]; exact h
    | fade => exact h
  · intro r ch note vel2 n v rv ht hl hk
    rcases ht with ht | ht <;>
      simp [Region.pass_midi_msg, Region.handle_note_off, Region.note_on, hk, ht, hl]

theorem C8_last_note_on_persistent_witness :
    (c3Region.last_note_on.isSome = true ∧
     (c3Region.group.1).last_note_on.isSome = true) ∧
    ((c3Region.params.trigger = .release ∨ c3Region.params.trigger = .releaseKey) ∧
     c3Region.last_note_on = some (60, 100) ∧
     c3Region.params.key_range.covering 62 = true ∧
     c3Region.pass_midi_msg (.noteOff 0 62 10) 0
       = ({ c3Region with once_immune_against_group_events := false, time_since_note_on := 0 },
          [SampleOp.noteOn 60 100 c3Region.time_since_note_on], true)) :=
  ⟨⟨by decide,
    C8_last_note_on_persistent.1 c3Region c3Region.group.1 (Step.grp c3Region) (by decide)⟩,
   ⟨Or.inl (by decide), by decide, by decide,
    C8_last_note_on_persistent.2 c3Region 0 62 10 60 100 0
      (Or.inl (by decide)) (by decide) (by decide)⟩⟩

/-- Orderedness of an optional-endpoint note range: whenever both
endpoints are present, lo ≤ hi. -/
def NoteRange.ordered (r : NoteRange) : Prop :=
  ∀ lo ∈ r.lo, ∀ hi ∈ r.hi, lo ≤ hi

/-- Orderedness of an optional-endpoint control-value range. -/
def ControlValRange.ordered (r : ControlValRange) : Prop :=
  ∀ lo ∈ r.lo, ∀ hi ∈ r.hi, lo ≤ hi

/-- C5 fails on the code: on a default `RandomRange` (hi = lo = 0) the
assignment `set_lo(1/2)` is flipped — it makes lo = 1/2 > hi = 0 — yet
it succeeds and mutates the range, because the flipped check in
`RandomRange::set_lo` only fires when `self.hi > 0.0`. -/
theorem C5_counterexample :
    RandomRange.default.set_lo (mkRat 1 2) = .ok ⟨0, mkRat 1 2⟩ ∧
    (⟨0, mkRat 1 2⟩ : RandomRange).hi < (⟨0, mkRat 1 2⟩ : RandomRange).lo :=
  ⟨by rfl, by decide⟩

/-- C5 (amended): for VelRange, NoteRange and ControlValRange every
Ok-returning mutator leaves lo ≤ hi (or an endpoint disabled), and a
flipped assignment returns an error without mutating (the state is
returned unchanged only inside `Except.ok`; an error carries no state).
For RandomRange the flipped check is guarded by positivity of the
untouched endpoint: a flipped assignment is rejected only when that
endpoint is positive, and after an Ok-returning call lo ≤ hi holds OR
the untouched endpoint is ≤ 0 (its "unset" default). -/
theorem C5_range_invariants :
    (∀ (r r' : VelRange) (v : Int), r.set_hi v = .ok r' → r'.lo ≤ r'.hi) ∧
    (∀ (r r' : VelRange) (v : Int), r.set_lo v = .ok r' → r'.lo ≤ r'.hi) ∧
    (∀ (r : VelRange) (v : Int), u8_of_i32 v ≤ 127 → u8_of_i32 v < r.lo →
        r.set_hi v = .error .flippedRange) ∧
    (∀ (r : VelRange) (v : Int), u8_of_i32 v ≤ 127 → r.hi < u8_of_i32 v →
        r.set_lo v = .error .flippedRange) ∧
    (∀ (r r' : NoteRange) (v : Int), r.set_hi v = .ok r' → r'.ordered) ∧
    (∀ (r r' : NoteRange) (v : Int), r.set_lo v = .ok r' → r'.ordered) ∧
    (∀ (r : NoteRange) (v : Int) (lo : Nat), v ≠ -1 → u8_of_i32 v ≤ 127 →
        r.lo = some lo → u8_of_i32 v < lo → r.set_hi v = .error .flippedRange) ∧
    (∀ (r : NoteRange) (v : Int) (hi : Nat), v ≠ -1 → u8_of_i32 v ≤ 127 →
        r.hi = some hi → hi < u8_of_i32 v → r.set_lo v = .error .flippedRange) ∧
    (∀ (r r' : ControlValRange) (v : Int), r.set_hi v = .ok r' → r'.ordered) ∧
    (∀ (r r' : ControlValRange) (v : Int), r.set_lo v = .ok r' → r'.ordered) ∧
    (∀ (r : ControlValRange) (v : Int) (lo : Nat), 0 ≤ v → u8_of_i32 v ≤ 127 →
        r.lo = some lo → u8_of_i32 v < lo → r.set_hi v = .error .flippedRange) ∧
    (∀ (r : ControlValRange) (v : Int) (hi : Nat), 0 ≤ v → u8_of_i32 v ≤ 127 →
        r.hi = some hi → hi < u8_of_i32 v → r.set_lo v = .error .flippedRange) ∧
    (∀ (r r' : RandomRange) (v : ℚ), r.set_hi v = .ok r' →
        r'.lo ≤ r'.hi ∨ r'.lo ≤ 0) ∧
    (∀ (r r' : RandomRange) (v : ℚ), r.set_lo v = .ok r' →
        r'.lo ≤ r'.hi ∨ r'.hi ≤ 0) ∧
    (∀ (r : RandomRange) (v : ℚ), v < r.lo → 0 < r.lo →
        r.set_hi v = .error .flippedRange) ∧
    (∀ (r : RandomRange) (v : ℚ), r.hi < v → 0 < r.hi →
        r.set_lo v = .error .flippedRange) := by
  refine ⟨?_, ?_, ?_, ?_, ?_, ?_, ?_, ?_, ?_, ?_, ?_, ?_, ?_, ?_, ?_, ?_⟩
  · rintro r r' v h
    simp only [VelRange.set_hi] at h
    split at h
    · split at h
      · simp at h
      · rename_i hle hflip
        injection h with h
        subst h
        exact Nat.le_of_not_lt hflip
    · simp at h
  · rintro r r' v h
    simp only [VelRange.set_lo] at h
    split at h
    · split at h
      · simp at h
      · rename_i hle hflip
        injection h with h
        subst h
        exact Nat.le_of_not_lt hflip
    · simp at h
  · rintro r v hle hflip
    simp [VelRange.set_hi, hle, hflip]
  · rintro r v hle hflip
    simp [VelRange.set_lo, hle, hflip]
  · rintro r r' v h
    simp only [NoteRange.set_hi] at h
    split at h
    · injection h with h
      subst h
      intro lo hlo hi hhi
      simp at hhi
    · split at h
      · split at h
        · simp at h
        · rename_i hne hle hflip
          injection h with h
          subst h
          intro lo hlo hi hhi
          rw [Option.mem_def] at hlo hhi
          simp only [Option.some.injEq] at hhi
          subst hhi
          rw [show r.lo = some lo from hlo] at hflip
          simpa using Nat.le_of_not_lt (by simpa using hflip)
      · simp at h
  · rintro r r' v h
    simp only [NoteRange.set_lo] at h
    split at h
    · injection h with h
      subst h
      intro lo hlo hi hhi
      simp at hlo
    · split at h
      · split at h
        · simp at h
        · rename_i hne hle hflip
          injection h with h
          subst h
          intro lo hlo hi hhi
          rw [Option.mem_def] at hlo hhi
          simp only [Option.some.injEq] at hlo
          subst hlo
          rw [show r.hi = some hi from hhi] at hflip
          simpa using Nat.le_of_not_lt (by simpa using hflip)
      · simp at h
  · rintro r v lo hne hle hlo hflip
    simp [NoteRange.set_hi, hne, hle, hlo, hflip]
  · rintro r v hi hne hle hhi hflip
    simp [NoteRange.set_lo, hne, hle, hhi, hflip]
  · rintro r r' v h
    simp only [ControlValRange.set_hi] at h
    split at h
    · injection h with h
      subst h
      intro lo hlo hi hhi
      simp at hhi
    · split at h
      · split at h
        · simp at h
        · rename_i hneg hle hflip
          injection h with h
          subst h
          intro lo hlo hi hhi
          rw [Option.mem_def] at hlo hhi
          simp only [Option.some.injEq] at hhi
          subst hhi
          rw [show r.lo = some lo from hlo] at hflip
          simpa using Nat.le_of_not_lt (by simpa using hflip)
      · simp at h
  · rintro r r' v h
    simp only [ControlValRange.set_lo] at h
    split at h
    · injection h with h
      subst h
      intro lo hlo hi hhi
      simp at hlo
    · split at h
      · split at h
        · simp at h
        · rename_i hneg hle hflip
          injection h with h
          subst h
          intro lo hlo hi hhi
          rw [Option.mem_def] at hlo hhi
          simp only [Option.some.injEq] at hlo
          subst hlo
          rw [show r.hi = some hi from hhi] at hflip
          simpa using Nat.le_of_not_lt (by simpa using hflip)
      · simp at h
  · rintro r v lo hneg hle hlo hflip
    have : ¬ v < 0 := by omega
    simp [ControlValRange.set_hi, this, hle, hlo, hflip]
  · rintro r v hi hneg hle hhi hflip
    have : ¬ v < 0 := by omega
    simp [ControlValRange.set_lo, this, hle, hhi, hflip]
  · rintro r r' v h
    simp only [RandomRange.set_hi] at h
    split at h
    · simp at h
    · split at h
      · simp at h
      · rename_i hflip
        injection h with h
        subst h
        rcases not_and_or.mp hflip with hf | hf
        · exact Or.inl (le_of_not_lt hf)
        · exact Or.inr (le_of_not_lt hf)
  · rintro r r' v h
    simp only [RandomRange.set_lo] at h
    split at h
    · simp at h
    · split at h
      · simp at h
      · rename_i hflip
        injection h with h
        subst h
        rcases not_and_or.mp hflip with hf | hf
        · exact Or.inl (le_of_not_lt hf)
        · exact Or.inr (le_of_not_lt hf)
  · rintro r v hflip hpos
    have hrange : ¬ (v < 0 ∧ 1 < v) := by
      rintro ⟨h1, h2⟩
      exact absurd (h1.trans (by norm_num : (0:ℚ) < 1)) (not_lt.mpr h2.le)
    simp [RandomRange.set_hi, hrange, hflip, hpos]
  · rintro r v hflip hpos
    have hrange : ¬ (v < 0 ∧ 1 < v) := by
      rintro ⟨h1, h2⟩
      exact absurd (h1.trans (by norm_num : (0:ℚ) < 1)) (not_lt.mpr h2.le)
    simp [RandomRange.set_lo, hrange, hflip, hpos]

theorem C5_range_invariants_witness :
    ((⟨10, 100⟩ : VelRange).lo ≤ (⟨10, 100⟩ : VelRange).hi) ∧
    ((⟨15, 20⟩ : VelRange).lo ≤ (⟨15, 20⟩ : VelRange).hi) ∧
    ((⟨50, 60⟩ : VelRange).set_hi 20 = .error .flippedRange) ∧
    ((⟨50, 60⟩ : VelRange).set_lo 100 = .error .flippedRange) ∧
    (⟨some 10, some 30⟩ : NoteRange).ordered ∧
    (⟨some 5, some 20⟩ : NoteRange).ordered ∧
    ((⟨some 50, some 60⟩ : NoteRange).set_hi 20 = .error .flippedRange) ∧
    ((⟨some 10, some 20⟩ : NoteRange).set_lo 90 = .error .flippedRange) ∧
    (⟨some 30, some 10⟩ : ControlValRange).ordered ∧
    (⟨some 20, some 5⟩ : ControlValRange).ordered ∧
    ((⟨some 60, some 50⟩ : ControlValRange).set_hi 20 = .error .flippedRange) ∧
    ((⟨some 20, some 10⟩ : ControlValRange).set_lo 90 = .error .flippedRange) ∧
    ((⟨3, 1⟩ : RandomRange).lo ≤ (⟨3, 1⟩ : RandomRange).hi
      ∨ (⟨3, 1⟩ : RandomRange).lo ≤ 0) ∧
    ((⟨2, 0⟩ : RandomRange).lo ≤ (⟨2, 0⟩ : RandomRange).hi
      ∨ (⟨2, 0⟩ : RandomRange).hi ≤ 0) ∧
    ((⟨3, 2⟩ : RandomRange).set_hi 1 = .error .flippedRange) ∧
    ((⟨1, 0⟩ : RandomRange).set_lo 2 = .error .flippedRange) :=
  ⟨C5_range_invariants.1 ⟨10, 20⟩ ⟨10, 100⟩ 100 (by rfl),
   C5_range_invariants.2.1 ⟨10, 20⟩ ⟨15, 20⟩ 15 (by rfl),
   C5_range_invariants.2.2.1 ⟨50, 60⟩ 20 (by decide) (by decide),
   C5_range_invariants.2.2.2.1 ⟨50, 60⟩ 100 (by decide) (by decide),
   C5_range_invariants.2.2.2.2.1 ⟨some 10, some 20⟩ ⟨some 10, some 30⟩ 30 (by rfl),
   C5_range_invariants.2.2.2.2.2.1 ⟨some 10, some 20⟩ ⟨some 5, some 20⟩ 5 (by rfl),
   C5_range_invariants.2.2.2.2.2.2.1 ⟨some 50, some 60⟩ 20 50
     (by decide) (by decide) (by decide) (by decide),
   C5_range_invariants.2.2.2.2.2.2.2.1 ⟨some 10, some 20⟩ 90 20
     (by decide) (by decide) (by decide) (by decide),
   C5_range_invariants.2.2.2.2.2.2.2.2.1 ⟨some 20, some 10⟩ ⟨some 30, some 10⟩ 30 (by rfl),
   C5_range_invariants.2.2.2.2.2.2.2.2.2.1 ⟨some 20, some 10⟩ ⟨some 20, some 5⟩ 5 (by rfl),
   C5_range_invariants.2.2.2.2.2.2.2.2.2.2.1 ⟨some 60, some 50⟩ 20 50
     (by decide) (by decide) (by decide) (by decide),
   C5_range_invariants.2.2.2.2.2.2.2.2.2.2.2.1 ⟨some 20, some 10⟩ 90 20
     (by decide) (by decide) (by decide) (by decide),
   C5_range_invariants.2.2.2.2.2.2.2.2.2.2.2.2.1 ⟨2, 1⟩ ⟨3, 1⟩ 3 (by rfl),
   C5_range_invariants.2.2.2.2.2.2.2.2.2.2.2.2.2.1 ⟨2, 1⟩ ⟨2, 0⟩ 0 (by rfl),
   C5_range_invariants.2.2.2.2.2.2.2.2.2.2.2.2.2.2.1 ⟨3, 2⟩ 1 (by decide) (by decide),
   C5_range_invariants.2.2.2.2.2.2.2.2.2.2.2.2.2.2.2 ⟨1, 0⟩ 2 (by decide) (by decide)⟩

/-- C9: a `NoteRange` or `ControlValRange` with a disabled endpoint
(`none`, produced by `set_lo(-1)`/`set_hi(-1)` for notes and by any
negative assignment for CC values) covers nothing at all: `covering`
returns false for every input, rather than treating the range as
open-ended on the disabled side. -/
theorem C9_disabled_endpoint_covers_nothing :
    (∀ (r : NoteRange) (n : Nat), (r.lo = none ∨ r.hi = none) →
        r.covering n = false) ∧
    (∀ (r : ControlValRange) (v : Nat), (r.lo = none ∨ r.hi = none) →
        r.covering v = false) ∧
    (∀ r : NoteRange,
        r.set_lo (-1) = .ok { r with lo := none }
          ∧ r.set_hi (-1) = .ok { r with hi := none }) ∧
    (∀ (r : ControlValRange) (v : Int), v < 0 →
        r.set_lo v = .ok { r with lo := none }
          ∧ r.set_hi v = .ok { r with hi := none }) := by
  refine ⟨?_, ?_, ?_, ?_⟩
  · rintro r n (h | h) <;>
      cases hlo : r.lo <;> cases hhi : r.hi <;>
        simp_all [NoteRange.covering]
  · rintro r v (h | h) <;>
      cases hlo : r.lo <;> cases hhi : r.hi <;>
        simp_all [ControlValRange.covering]
  · intro r
    exact ⟨by simp [NoteRange.set_lo], by simp [NoteRange.set_hi]⟩
  · intro r v hv
    exact ⟨by simp [ControlValRange.set_lo, hv], by simp [ControlValRange.set_hi, hv]⟩

theorem C9_disabled_endpoint_covers_nothing_witness :
    ((⟨none, some 20⟩ : NoteRange).covering 10 = false) ∧
    ((⟨some 3, none⟩ : ControlValRange).covering 3 = false) ∧
    ((⟨some 3, some 20⟩ : NoteRange).set_lo (-1)
        = .ok { (⟨some 3, some 20⟩ : NoteRange) with lo := none }) ∧
    ((-7 : Int) < 0 ∧
     (⟨some 9, some 2⟩ : ControlValRange).set_hi (-7)
        = .ok { (⟨some 9, some 2⟩ : ControlValRange) with hi := none }) :=
  ⟨C9_disabled_endpoint_covers_nothing.1 ⟨none, some 20⟩ 10 (Or.inl rfl),
   C9_disabled_endpoint_covers_nothing.2.1 ⟨some 3, none⟩ 3 (Or.inl rfl),
   (C9_disabled_endpoint_covers_nothing.2.2.1 ⟨some 3, some 20⟩).1,
   ⟨by decide,
    (C9_disabled_endpoint_covers_nothing.2.2.2 ⟨some 9, some 2⟩ (-7) (by decide)).2⟩⟩

/-- C10: `handle_control_event` reports "fired" exactly when `on_ccs`
holds a range for the controller that covers the value — independently
of any sustain-pedal action — and its sample calls are the pedal calls
(present only for controller 64) followed by the CC-triggered note-on
at `pitch_keycenter` with maximal velocity 127, evaluated in the state
left behind by the pedal handling. `(r, [])` is the no-pedal-action
pair, so its call list is empty and its state is `r` itself. -/
theorem C10_control_event_order (r : Region) (cnum cval : Nat) :
    ((r.handle_control_event cnum cval).2.2 = true ↔
        ∃ range, ccLookup r.params.on_ccs cnum = some range
          ∧ range.covering cval = true) ∧
    (r.handle_control_event cnum cval).2.1
      = (if cnum = 64 then r.sustain_pedal (decide (64 ≤ cval)) else (r, [])).2
        ++ (match ccLookup r.params.on_ccs cnum with
            | some range =>
                if range.covering cval then
                  [SampleOp.noteOn r.params.pitch_keycenter 127
                    ((if cnum = 64 then r.sustain_pedal (decide (64 ≤ cval))
                      else (r, [])).1.time_since_note_on)]
                else []
            | none => []) := by
  have hs : (if cnum = 64 then r.sustain_pedal (decide (64 ≤ cval))
      else (r, ([] : List SampleOp))).1.params = r.params := by
    split
    · exact sustain_pedal_params _ _
    · rfl
  rcases hcc : ccLookup r.params.on_ccs cnum with _ | range
  · constructor
    · simp only [Region.handle_control_event, hs, hcc]
      simp
    · simp only [Region.handle_control_event, hs, hcc]
      simp
  · by_cases hcov : range.covering cval = true
    · constructor
      · simp only [Region.handle_control_event, hs, hcc, hcov]
        exact ⟨fun _ => ⟨range, rfl, hcov⟩, fun _ => rfl⟩
      · simp only [Region.handle_control_event, hs, hcc, hcov, Region.note_on]
        rfl
    · have hcov' : range.covering cval = false := by
        simpa using hcov
      constructor
      · simp only [Region.handle_control_event, hs, hcc, hcov']
        simp [hcov']
      · simp only [Region.handle_control_event, hs, hcc, hcov']
        simp

/-- The velocity attenuation exactly as claim C6 words it: -160 dB at
zero effective velocity, else `40·log10(v'/127)`. -/
noncomputable def specVelocityDb (params : RegionData) (velocity : Nat) : ℝ :=
  let v := velTracked params velocity
  if v = 0 then -160 else 40 * Real.logb 10 ((v : ℝ) / 127)

/-- The release-trigger penalty exactly as claim C6 words it:
`-rtDecay · timeSinceNoteOn` for Release and ReleaseKey, 0 otherwise. -/
noncomputable def specRtPenalty (params : RegionData) (timeSince : ℚ) : ℝ :=
  match params.trigger with
  | .release | .releaseKey => -(params.rt_decay : ℝ) * (timeSince : ℝ)
  | _ => 0

/-- C6: the linear gain computed on firing equals `10^(dB/20)` with
`dB = volume + |ampVeltrack|·velocityDb + rtPenalty`, where velocityDb
is -160 for a zero effective velocity and `40·log10(v'/127)` otherwise
(`v' = 127 - velocity` under negative ampVeltrack, else `velocity`),
and rtPenalty is `-rtDecay·timeSinceNoteOn` exactly for the Release and
ReleaseKey triggers. The code's `-20·log10(127²/(v'·v'))` and the
claim's `40·log10(v'/127)` agree as real numbers. -/
theorem C6_gain_formula (params : RegionData) (timeSince : ℚ) (velocity : Nat) :
    noteOnGain params timeSince velocity
      = (10 : ℝ) ^ (((params.volume : ℝ)
          + |(params.amp_veltrack : ℝ)| * specVelocityDb params velocity
          + specRtPenalty params timeSince) / 20) := by
  have hvdb : velocityDb params velocity = specVelocityDb params velocity := by
    by_cases h0 : velTracked params velocity = 0
    · simp [velocityDb, specVelocityDb, h0]
    · have hvpos : (0 : ℝ) < (velTracked params velocity : ℝ) := by
        exact_mod_cast Nat.pos_of_ne_zero h0
      simp only [velocityDb, specVelocityDb, if_neg h0]
      set V : ℝ := (velTracked params velocity : ℝ) with hV
      have hVne : V ≠ 0 := ne_of_gt hvpos
      have key : (127 : ℝ) * 127 / (V * V) = ((V / 127)⁻¹) ^ 2 := by
        rw [inv_div]
        field_simp
        ring
      rw [key, Real.logb_pow, Real.logb_inv]
      ring
  have hrt : rtDecayDb params timeSince = specRtPenalty params timeSince := by
    unfold rtDecayDb specRtPenalty
    cases params.trigger <;> ring
  unfold noteOnGain dB_to_gain
  rw [hvdb, hrt]
  congr 1
  ring

/-- The keycenter of A3 = MIDI 69 (concert A), keeping every other
parameter at its default. -/
def c7Params : RegionData := { RegionData.default with pitch_keycenter := 69 }

/-- The target frequency exactly as claim C7 words it: the keycenter
frequency SCALED by hostRate/sourceRate, times keyShift and tuneShift. -/
noncomputable def claimC7TargetFreq (params : RegionData) (host source : ℚ) (note : Nat) : ℝ :=
  (noteHz params.pitch_keycenter * ((host : ℝ) / (source : ℝ)))
    * ((noteHz note / noteHz params.pitch_keycenter) ^ (params.pitch_keytrack : ℝ))
    * ((2 : ℝ) ^ ((params.tune : ℝ) / 12))

theorem noteHz_69 : noteHz 69 = 440 := by
  unfold noteHz
  rw [show (((69 : Nat) : ℝ) - 69) / 12 = 0 by norm_num, Real.rpow_zero]
  norm_num

/-- C7 fails on the code: with keycenter 69, keytrack 1, tune 0, host
rate 2 and source rate 1, `Region::note_on` passes the UNSCALED 440 Hz
to the sample, while the claim's formula — keycenter frequency scaled
by hostRate/sourceRate — yields 880 Hz. (The host/source scaling is
applied to the sample's stored native frequency at construction, not to
the per-note target frequency.) -/
theorem C7_counterexample :
    noteOnFreq c7Params 69 = 440 ∧
    claimC7TargetFreq c7Params 2 1 69 = 880 ∧
    (440 : ℝ) ≠ 880 := by
  have hstep : noteOnFreq c7Params 69
      = noteHz 69 * ((noteHz 69 / noteHz 69) ^ ((1 : ℚ) : ℝ))
        * (2 : ℝ) ^ (1 / 12 * ((0 : ℚ) : ℝ)) := rfl
  have hstep2 : claimC7TargetFreq c7Params 2 1 69
      = (noteHz 69 * (((2 : ℚ) : ℝ) / ((1 : ℚ) : ℝ)))
        * ((noteHz 69 / noteHz 69) ^ ((1 : ℚ) : ℝ))
        * (2 : ℝ) ^ (((0 : ℚ) : ℝ) / 12) := rfl
  refine ⟨?_, ?_, by norm_num⟩
  · rw [hstep, noteHz_69, div_self (by norm_num : (440 : ℝ) ≠ 0), Real.one_rpow]
    norm_num [Real.rpow_zero]
  · rw [hstep2, noteHz_69, div_self (by norm_num : (440 : ℝ) ≠ 0), Real.one_rpow]
    norm_num [Real.rpow_zero]

/-- C7 (amended): the target frequency passed to `Sample::note_on` is
the UNSCALED keycenter frequency times
`keyShift = (note.hz/keycenterHz)^pitchKeytrack` and
`tuneShift = 2^(tune/12)`; the hostRate/sourceRate compensation is not
part of the target frequency — it is baked into the sample's native
frequency when the region is constructed. -/
theorem C7_target_frequency (params : RegionData) (note : Nat) (r : Region) :
    noteOnFreq params note
      = noteHz params.pitch_keycenter
        * ((noteHz note / noteHz params.pitch_keycenter) ^ (params.pitch_keytrack : ℝ))
        * ((2 : ℝ) ^ ((params.tune : ℝ) / 12)) ∧
    r.sampleNativeFreq
      = noteHz r.params.pitch_keycenter
        * ((r.host_samplerate : ℝ) / (r.sample_samplerate : ℝ)) := by
  refine ⟨?_, rfl⟩
  unfold noteOnFreq
  ring_nf

end Sonarigo
